import Mathlib

/-!
Verification of the sheet row reconciliation and header-management core of an
order-intake backend. The repository consists of successive revisions of one
Express server file; the functions embedded here are the header registry
(`ensureHeaders`, `getOrCreateHeaders`), the row mappers (`rowData`,
`buildRowIndexed`), the insertion-point resolver (the blank-row scan of
`/api/submit-orders`), and the batch coordinator pipelines (concurrent
uploads via Promise.all in the latest revision, a sequential per-order loop
in the earlier one).

A sheet tab is modelled as a list of rows, each row a list of cell strings;
a cell absent from a row is empty. Reads through the Sheets values API trim
trailing empty cells, and a range read that finds no non-empty cell yields
an empty result, which the JS code turns into the empty list.
-/

namespace OrderBackend

/-- A sheet row: the formatted string values of its cells, left to right. -/
abbrev Row := List String

/-- A sheet tab: its rows in order, row 1 at the head. -/
abbrev Grid := List Row

/-- JS String.prototype.trim over the character list: drop whitespace from
both ends. -/
def trimChars (cs : List Char) : List Char :=
  ((cs.dropWhile Char.isWhitespace).reverse.dropWhile Char.isWhitespace).reverse

/-- JS String.prototype.trim on a string value. -/
def jsTrim (s : String) : String := String.mk (trimChars s.data)

/-- JS blank-cell test of the insertion-point scan: `!cell || cell.trim() === ""`
holds exactly when the cell is empty or whitespace-only. -/
def blankCell (c : String) : Bool := jsTrim c = ""

/-- JS blank-row test of the insertion-point scan: the row is missing, has
length zero, or every cell is blank. -/
def blankRow (r : Row) : Bool := r.all blankCell

/-- The Sheets values API drops trailing empty cells from each returned row. -/
def trimTrailing (r : Row) : Row := (r.reverse.dropWhile (fun c => c = "")).reverse

/-- Overwrite semantics of values.update on one row: the written cells replace
the leading cells, cells beyond the written range keep their old values. -/
def overwriteCells (old new : Row) : Row := new ++ old.drop new.length

/-- values.update at cell A1 with a single row of values. -/
def setRow1 (g : Grid) (vals : Row) : Grid :=
  match g with
  | [] => [vals]
  | r :: rest => overwriteCells r vals :: rest

/-- FIXED_HEADERS of the latest revision (server.js): the canonical 15-column
schema of the static-fixed strategy. -/
def FIXED_HEADERS : List String :=
  ["제품명", "수취인명", "연락처", "은행", "계좌(-)", "예금주",
   "결제금액(원 쓰지 마세요)", "아이디", "주문번호", "주소", "닉네임", "회수이름",
   "회수연락처", "이미지", "주문일시"]

/-- The values.get of range A1:O1 in ensureHeaders: the first row restricted to
the first 15 columns, with trailing empty cells dropped; an empty result is
the empty list, as in the JS `response.data.values ? response.data.values[0] : []`. -/
def readHeaderRow (g : Grid) : Row := trimTrailing ((g.headD []).take 15)

/-- ensureHeaders of server.js: read A1:O1; if the result is empty or its first
cell differs from the first fixed header, overwrite row 1 with FIXED_HEADERS. -/
def ensureHeaders (g : Grid) : Grid :=
  let existing := readHeaderRow g
  if existing.length = 0 ∨ existing.headD "" ≠ FIXED_HEADERS.headD "" then
    setRow1 g FIXED_HEADERS
  else g

/-- The catch branch of ensureHeaders: on any error the fixed headers are
written at A1 unconditionally. -/
def ensureHeadersFallback (g : Grid) : Grid := setRow1 g FIXED_HEADERS

/-- ensureHeaders with the outcome of the header read made explicit: when the
read fails the catch branch runs. -/
def ensureHeadersRun (readOk : Bool) (g : Grid) : Grid :=
  if readOk then ensureHeaders g else ensureHeadersFallback g

/-- standardHeaders of the earlier revisions (getOrCreateHeaders): the fixed
starting list of the adaptive-extend strategy, with the two reserved columns
(image link, order timestamp) last. -/
def standardHeaders : List String :=
  ["제품명", "수취인명", "연락처", "은행", "계좌(-)", "예금주",
   "결제금액", "아이디", "주문번호", "주소", "회수연락처", "이미지", "주문일시"]

/-- A keyed order record: field name to string value, keys unique as in a JS
object literal parsed from JSON. -/
abbrev OrderData := List (String × String)

/-- Object.keys of a keyed order record. -/
def orderKeys (d : OrderData) : List String := d.map Prod.fst

/-- The JS lookup `orderData[header] || ""`: the value for the key, or the
empty string when the key is absent (an empty value is also collapsed). -/
def valueFor (d : OrderData) (h : String) : String := (d.lookup h).getD ""

/-- `allHeaders.splice(allHeaders.length - 2, 0, key)`: insert the key right
before the two trailing reserved columns. (The list always starts from
standardHeaders, so its length is at least 13 and the JS index is
non-negative.) -/
def spliceBeforeLastTwo (l : List String) (k : String) : List String :=
  l.take (l.length - 2) ++ [k] ++ l.drop (l.length - 2)

/-- Empty-sheet branch of getOrCreateHeaders: start from standardHeaders and
insert every record key not already present before the two reserved columns. -/
def buildAllHeaders (keys : List String) : List String :=
  keys.foldl (fun acc k => if k ∈ acc then acc else spliceBeforeLastTwo acc k)
    standardHeaders

/-- One step of the header-extension forEach of getOrCreateHeaders: a key not
present and not one of the two reserved names is inserted at the index of the
image column when that column exists, else pushed at the end. -/
def extendStep (acc : List String) (k : String) : List String :=
  if k ∈ acc ∨ k = "이미지" ∨ k = "주문일시" then acc
  else
    match acc.findIdx? (fun x => x = "이미지") with
    | some idx => acc.take idx ++ [k] ++ acc.drop idx
    | none => acc ++ [k]

/-- The header-extension forEach of getOrCreateHeaders over all record keys. -/
def extendHeaders (existing : List String) (keys : List String) : List String :=
  keys.foldl extendStep existing

/-- getOrCreateHeaders of the earlier revisions, success path. Reads the whole
first row (range 1:1). When the read is empty, builds and writes the grown
standard header list; otherwise extends the existing headers with unseen keys
and writes the row back only when something was inserted. Returns the updated
grid and the resolved header list. -/
def getOrCreateHeaders (g : Grid) (d : OrderData) : Grid × List String :=
  let existing := trimTrailing (g.headD [])
  if existing.length = 0 then
    let allHeaders := buildAllHeaders (orderKeys d)
    (setRow1 g allHeaders, allHeaders)
  else
    let extended := extendHeaders existing (orderKeys d)
    (if extended = existing then g else setRow1 g extended, extended)

/-- The catch branch of getOrCreateHeaders: on any error it returns
standardHeaders without touching the sheet. -/
def getOrCreateHeadersOnError (g : Grid) : Grid × List String :=
  (g, standardHeaders)

/-- rowData of the earlier revisions: for each resolved header emit the order
timestamp for the timestamp column, the image link for the image column, and
otherwise the record value for that header name, defaulting to the empty
string. -/
def rowData (headers : List String) (d : OrderData) (imageUrl ts : String) : Row :=
  headers.map fun h =>
    if h = "주문일시" then ts
    else if h = "이미지" then imageUrl
    else valueFor d h

/-- allRows row construction of the latest revision (index mode): columns A to
M from the first 13 positional values (missing ones as empty strings), then
the image link in column N and the order timestamp in column O. -/
def buildRowIndexed (orderValues : List String) (imageUrl ts : String) : Row :=
  ((List.range 13).map fun i => orderValues.getD i "") ++ [imageUrl, ts]

/-- The blank-row scan loop of the latest /api/submit-orders: walk the rows
with their array index, returning i + 1 (a 1-based row number) for the first
blank row, or nothing when the loop never breaks. -/
def gapScanList : Grid → Nat → Option Nat
  | [], _ => none
  | r :: rest, i => if blankRow r then some (i + 1) else gapScanList rest (i + 1)

/-- The gap-reuse insertion-point resolver of the latest revision: nextRow is
allData.length + 1 unless the scan over the rows at array indices 1 and up
(rows 2 and up) finds a blank row first. -/
def resolveWriteStartGapReuse (allData : Grid) : Nat :=
  (gapScanList (allData.drop 1) 1).getD (allData.length + 1)

/-- Refinement reference, following the specification wording for the
gap-reuse policy: scan the rows starting from row 2 in order; the first row
that is absent or entirely blank becomes the start row; if no blank row is
found the start is the total number of existing rows plus one. -/
def resolveWriteStartSpec (allData : Grid) : Nat :=
  match (allData.drop 1).findIdx? blankRow with
  | some j => j + 2
  | none => allData.length + 1

/-- Column A of a grid as seen by a values.get of the first column only:
first cells, with trailing empty entries dropped. -/
def readColumnA (g : Grid) : List String :=
  trimTrailing (g.map fun r => r.headD "")

/-- Modelled from the spec: the append-only insertion policy (read only the
first column to find the current occupied row count; start is that count plus
one). No revision under src implements this read; the early revisions call
values.append, an external-API append, so the policy is taken from the
specification text. -/
def resolveWriteStartAppendOnly (g : Grid) : Nat := (readColumnA g).length + 1

/-- values.update overwrite of one row at 0-based row index i, extending the
grid with empty rows when the index is past the end. -/
def setRowAt (g : Grid) (i : Nat) (r : Row) : Grid :=
  if i < g.length then
    g.take i ++ [overwriteCells (g.getD i []) r] ++ g.drop (i + 1)
  else g ++ List.replicate (i - g.length) [] ++ [r]

/-- values.update at cell A(start) with a block of rows: the rows overwrite
consecutive grid rows beginning at the 1-based start row. -/
def writeRowsAt (g : Grid) (start : Nat) : List Row → Grid
  | [] => g
  | r :: rs => writeRowsAt (setRowAt g (start - 1) r) (start + 1) rs

/-- The outcome of one attachment upload: the image link on success (empty
when the order has no attachment), or a failed upload. -/
abbrev UploadResult := Except String String

/-- Whether an upload settled successfully. -/
def uploadOk : UploadResult → Bool
  | .ok _ => true
  | .error _ => false

/-- The image link of a successful upload. -/
def uploadUrl : UploadResult → String
  | .ok u => u
  | .error _ => ""

/-- Promise.all over the per-order upload tasks, with the completion order
made explicit: each completing task stores its result in the slot of its
originating index; the list of completions is processed in completion order. -/
def promiseAll {β : Type} (n : Nat) (task : Nat → β) (order : List Nat) :
    List (Option β) :=
  order.foldl (fun slots i => slots.set i (some (task i))) (List.replicate n none)

/-- The upload task of order i in the latest revision: it carries the order
values and the image link, tagged by its index through the slot it fills. -/
def uploadTask (orders : List (List String)) (url : Nat → String) (i : Nat) :
    List String × String :=
  (orders.getD i [], url i)

/-- allRows of the latest revision built from the Promise.all results under a
given upload completion order. -/
def allRowsOf (orders : List (List String)) (url : Nat → String) (ts : String)
    (order : List Nat) : List Row :=
  (promiseAll orders.length (uploadTask orders url) order).map fun res =>
    match res with
    | some (ov, u) => buildRowIndexed ov u ts
    | none => []

/-- The /api/submit-orders pipeline of the latest revision: headers are
ensured first, then every upload runs under Promise.all; if any upload fails
the whole Promise.all rejects and the sheet write never runs, otherwise the
rows are built in index order and written as one block at the resolved start
row. Returns the final grid and whether the batch succeeded. -/
def submitOrdersIndexed (g : Grid) (orders : List (List String))
    (up : Nat → UploadResult) (ts : String) : Grid × Bool :=
  let g1 := ensureHeaders g
  if (List.range orders.length).all (fun i => uploadOk (up i)) then
    if orders.length ≠ 0 then
      let rows := (List.range orders.length).map fun i =>
        buildRowIndexed (orders.getD i []) (uploadUrl (up i)) ts
      (writeRowsAt g1 (resolveWriteStartGapReuse g1) rows, true)
    else (g1, true)
  else (g1, false)

/-- The sequential /api/submit-orders loop of the earlier revision, from order
index i onward: upload the attachment of the current order (a failure aborts
the loop and the whole batch, leaving the grid as already written), then
resolve headers, build the row, append it, and continue. -/
def submitOrdersSeqFrom (ts : String) (up : Nat → UploadResult) :
    Grid → Nat → List OrderData → Grid × Bool
  | g, _, [] => (g, true)
  | g, i, d :: rest =>
    match up i with
    | .error _ => (g, false)
    | .ok url =>
      let res := getOrCreateHeaders g d
      let g2 := res.1 ++ [rowData res.2 d url ts]
      submitOrdersSeqFrom ts up g2 (i + 1) rest

/-- The sequential batch pipeline of the earlier revision. -/
def submitOrdersSeq (g : Grid) (orders : List OrderData)
    (up : Nat → UploadResult) (ts : String) : Grid × Bool :=
  submitOrdersSeqFrom ts up g 0 orders

/-- Concrete image links for the witness instances. -/
def demoUrl : Nat → String := fun i => "url" ++ toString i

/-- Concrete keyed order record for the counterexample instances. -/
def demoOrder : OrderData := [("제품명", "Widget")]

/-- Second concrete keyed order record for the counterexample instances. -/
def demoOrder2 : OrderData := [("제품명", "Gadget")]

/-- Upload outcomes where the first upload succeeds without an attachment and
the second upload fails. -/
def demoUp : Nat → UploadResult := fun i =>
  if i = 0 then .ok "" else .error "upload failed"

end OrderBackend

namespace OrderBackend

theorem trimTrailing_fixed : trimTrailing FIXED_HEADERS = FIXED_HEADERS := by decide

theorem take_15_fixed : FIXED_HEADERS.take 15 = FIXED_HEADERS := by decide

theorem headD_setRow1 (g : Grid) (hw : (g.headD []).length ≤ FIXED_HEADERS.length) :
    (setRow1 g FIXED_HEADERS).headD [] = FIXED_HEADERS := by
  cases g with
  | nil => rfl
  | cons r rest =>
    simp only [setRow1, overwriteCells, List.headD_cons]
    have : r.drop FIXED_HEADERS.length = [] := List.drop_eq_nil_of_le hw
    simp at hw ⊢
    simp [List.drop_eq_nil_of_le, hw]

theorem readHeaderRow_setRow1 (g : Grid) :
    readHeaderRow (setRow1 g FIXED_HEADERS) = FIXED_HEADERS := by
  cases g with
  | nil =>
    simp [readHeaderRow, setRow1, take_15_fixed, trimTrailing_fixed]
  | cons r rest =>
    simp only [readHeaderRow, setRow1, overwriteCells, List.headD_cons]
    have hlen : FIXED_HEADERS.length = 15 := by decide
    rw [show (15 : Nat) = FIXED_HEADERS.length from hlen.symm, List.take_left,
      trimTrailing_fixed]

theorem ensureHeaders_write (g : Grid)
    (hc : (readHeaderRow g).length = 0 ∨
      (readHeaderRow g).headD "" ≠ FIXED_HEADERS.headD "") :
    ensureHeaders g = setRow1 g FIXED_HEADERS := by
  rw [ensureHeaders, if_pos hc]

theorem ensureHeaders_skip (g : Grid)
    (hc : ¬ ((readHeaderRow g).length = 0 ∨
      (readHeaderRow g).headD "" ≠ FIXED_HEADERS.headD "")) :
    ensureHeaders g = g := by
  rw [ensureHeaders, if_neg hc]

/-- Claim C1: for the static-fixed header strategy, ensureHeaders reads the
first row of the tab and: if the read row is empty it writes the canonical
schema as row 1, so the header row becomes the canonical schema; if it is
non-empty and its first cell equals the first canonical entry, the tab is
left untouched and the header row stays the existing row as-is; if it is
non-empty and its first cell differs, row 1 is overwritten with the
canonical schema. The header row is assumed to fit the 15-column schema
width that the A1:O1 read covers. -/
theorem ensureHeaders_decision_table (g : Grid)
    (hw : (g.headD []).length ≤ FIXED_HEADERS.length) :
    (readHeaderRow g = [] → (ensureHeaders g).headD [] = FIXED_HEADERS) ∧
    (readHeaderRow g ≠ [] →
      (readHeaderRow g).headD "" = FIXED_HEADERS.headD "" →
      ensureHeaders g = g) ∧
    (readHeaderRow g ≠ [] →
      (readHeaderRow g).headD "" ≠ FIXED_HEADERS.headD "" →
      (ensureHeaders g).headD [] = FIXED_HEADERS) := by
  refine ⟨?_, ?_, ?_⟩
  · intro h
    rw [ensureHeaders_write g (Or.inl (by simp [h]))]
    exact headD_setRow1 g hw
  · intro h1 h2
    refine ensureHeaders_skip g ?_
    push_neg
    exact ⟨fun hl => h1 (List.length_eq_zero.mp hl), h2⟩
  · intro _ h2
    rw [ensureHeaders_write g (Or.inr h2)]
    exact headD_setRow1 g hw

/-- Witness for claim C1: on the empty tab the read row is empty and the
header row after the call is exactly the canonical schema. -/
theorem ensureHeaders_decision_table_inst :
    (ensureHeaders ([] : Grid)).headD [] = FIXED_HEADERS :=
  (ensureHeaders_decision_table [] (by decide)).1 rfl

/-- Claim C8: calling ensureHeaders twice in a row with the same canonical
schema yields the same stored state as calling it once; in particular the
stored header row is identical, with no duplication and no drift. -/
theorem ensureHeaders_idem (g : Grid) :
    ensureHeaders (ensureHeaders g) = ensureHeaders g := by
  by_cases hc : (readHeaderRow g).length = 0 ∨
      (readHeaderRow g).headD "" ≠ FIXED_HEADERS.headD ""
  · rw [ensureHeaders_write g hc]
    refine ensureHeaders_skip _ ?_
    rw [readHeaderRow_setRow1]
    push_neg
    exact ⟨by decide, rfl⟩
  · rw [ensureHeaders_skip g hc, ensureHeaders_skip g hc]

theorem gapScanList_eq (l : Grid) :
    ∀ i : Nat, gapScanList l i = (l.findIdx? blankRow).map (fun j => i + j + 1) := by
  induction l with
  | nil => intro i; rfl
  | cons r rest ih =>
    intro i
    simp only [gapScanList, List.findIdx?_cons]
    by_cases hb : blankRow r = true
    · simp [hb]
    · rw [if_neg hb, if_neg hb, ih (i + 1), List.findIdx?_succ]
      cases h : rest.findIdx? blankRow <;> simp [h] <;> omega

/-- Claim C2: under the gap-reuse policy, the resolver returns the position of
the first row that is absent or entirely blank, scanning in order from row 2
(row 1 is the header), and the total number of existing rows plus one when no
such row exists, exactly as the specification words it; in particular, on the
existing rows header, A, blank, B, a 1-row batch lands at row 3, not row 4. -/
theorem gapReuse_matches_spec :
    (∀ g : Grid, resolveWriteStartGapReuse g = resolveWriteStartSpec g) ∧
    resolveWriteStartGapReuse [["제품명"], ["A"], [""], ["B"]] = 3 ∧
    writeRowsAt [["제품명"], ["A"], [""], ["B"]] 3 [["C"]]
      = [["제품명"], ["A"], ["C"], ["B"]] := by
  refine ⟨?_, by decide, by decide⟩
  intro g
  simp only [resolveWriteStartGapReuse, resolveWriteStartSpec, gapScanList_eq]
  cases h : (g.drop 1).findIdx? blankRow <;> simp [h] <;> omega

/-- Claim C9: under the append-only policy, modelled from the spec (read only
the first column to find the current occupied row count; start is that count
plus one), on the sheet whose existing rows are the header row and one data
row with cells A and B, the resolver returns row 3 and a 2-row batch written
there produces rows 3 and 4. -/
theorem appendOnly_start_after_last :
    (∀ g : Grid, resolveWriteStartAppendOnly g = (readColumnA g).length + 1) ∧
    resolveWriteStartAppendOnly [["제품명", "주문일시"], ["A", "B"]] = 3 ∧
    writeRowsAt [["제품명", "주문일시"], ["A", "B"]] 3 [["C"], ["D"]]
      = [["제품명", "주문일시"], ["A", "B"], ["C"], ["D"]] :=
  ⟨fun _ => rfl, by decide, by decide⟩

/-- Claim C4: row building is schema-aligned. For the keyed mapper rowData:
output length equals the resolved schema length; the cell under the image
header is always the attachment link and the cell under the timestamp header
is always the submission time, never a same-named record field; a header
absent from the record yields the empty string in place, so missing values
never shift subsequent columns. For the positional mapper buildRowIndexed:
output length equals the fixed 15-column schema length; column N (index 13)
is always the attachment link and column O (index 14) the timestamp, never
read positionally from the record; values past the first 13 are ignored. -/
theorem buildRow_schema_aligned (headers : List String) (d : OrderData)
    (imageUrl ts : String) :
    (rowData headers d imageUrl ts).length = headers.length ∧
    (∀ i : Nat, headers[i]? = some "이미지" →
      (rowData headers d imageUrl ts)[i]? = some imageUrl) ∧
    (∀ i : Nat, headers[i]? = some "주문일시" →
      (rowData headers d imageUrl ts)[i]? = some ts) ∧
    (∀ (i : Nat) (h : String), headers[i]? = some h → h ≠ "이미지" →
      h ≠ "주문일시" → d.lookup h = none →
      (rowData headers d imageUrl ts)[i]? = some "") ∧
    (∀ vals : List String,
      (buildRowIndexed vals imageUrl ts).length = FIXED_HEADERS.length) ∧
    (∀ vals : List String,
      (buildRowIndexed vals imageUrl ts)[13]? = some imageUrl ∧
      (buildRowIndexed vals imageUrl ts)[14]? = some ts) ∧
    (∀ vals : List String,
      buildRowIndexed vals imageUrl ts = buildRowIndexed (vals.take 13) imageUrl ts) := by
  have himg : ("이미지" : String) ≠ "주문일시" := by decide
  refine ⟨by simp [rowData], ?_, ?_, ?_, ?_, ?_, ?_⟩
  · intro i hi
    simp [rowData, List.getElem?_map, hi, himg]
  · intro i hi
    simp [rowData, List.getElem?_map, hi]
  · intro i h hi h1 h2 hlook
    simp [rowData, List.getElem?_map, hi, h1, h2, valueFor, hlook]
  · intro vals
    simp [buildRowIndexed, FIXED_HEADERS]
  · intro vals
    constructor
    · rw [buildRowIndexed, List.getElem?_append_right (by simp)]
      simp
    · rw [buildRowIndexed, List.getElem?_append_right (by simp)]
      simp
  · intro vals
    rw [buildRowIndexed, buildRowIndexed]
    congr 1
    refine List.map_congr_left ?_
    intro i hi
    have hi13 : i < 13 := List.mem_range.mp hi
    simp [List.getD, List.getElem?_take, hi13]

/-- Witness for claim C4: with a record that carries a field named like the
image column, the cell under the image header is still the attachment link,
and a positional row has the full 15-column width. -/
theorem buildRow_schema_aligned_inst :
    (rowData standardHeaders [("이미지", "EVIL")] "URL" "TS")[11]? = some "URL" ∧
    (buildRowIndexed ["a", "b"] "URL" "TS").length = FIXED_HEADERS.length :=
  ⟨(buildRow_schema_aligned standardHeaders [("이미지", "EVIL")] "URL" "TS").2.1 11
      (by decide),
   (buildRow_schema_aligned standardHeaders [("이미지", "EVIL")] "URL" "TS").2.2.2.2.1
      ["a", "b"]⟩

theorem promiseAll_foldl_length {β : Type} (task : Nat → β) :
    ∀ (order : List Nat) (slots : List (Option β)),
      (order.foldl (fun s i => s.set i (some (task i))) slots).length
        = slots.length := by
  intro order
  induction order with
  | nil => intro slots; rfl
  | cons i rest ih => intro slots; rw [List.foldl_cons, ih, List.length_set]

theorem promiseAll_foldl_getElem {β : Type} (task : Nat → β) :
    ∀ (order : List Nat) (slots : List (Option β)) (j : Nat),
      (order.foldl (fun s i => s.set i (some (task i))) slots)[j]?
        = if j ∈ order then
            (if j < slots.length then some (some (task j)) else none)
          else slots[j]? := by
  intro order
  induction order with
  | nil => intro slots j; simp
  | cons i rest ih =>
    intro slots j
    rw [List.foldl_cons, ih]
    by_cases hjr : j ∈ rest
    · simp [hjr, List.length_set, List.mem_cons]
    · by_cases hij : i = j
      · subst hij
        simp only [hjr, if_false, List.length_set, List.mem_cons, true_or, if_true]
        by_cases hlt : i < slots.length
        · rw [List.getElem?_set_self', List.getElem?_eq_getElem hlt]
          simp [hlt]
        · rw [List.getElem?_set_self', List.getElem?_eq_none (Nat.le_of_not_lt hlt)]
          simp [hlt]
      · rw [List.getElem?_set_ne hij]
        have : ¬ j ∈ i :: rest := by
          simp only [List.mem_cons]
          push_neg
          exact ⟨fun h => hij h.symm, hjr⟩
        simp [this, hjr]

theorem promiseAll_eq_of_mem {β : Type} (n : Nat) (task : Nat → β)
    (order : List Nat) (h : ∀ j, j < n → j ∈ order) :
    promiseAll n task order = (List.range n).map (fun i => some (task i)) := by
  apply List.ext_getElem?
  intro j
  rw [promiseAll, promiseAll_foldl_getElem]
  by_cases hj : j < n
  · simp [h j hj, List.length_replicate, hj, List.getElem?_map, List.getElem?_range hj]
  · have hrange : ((List.range n).map (fun i => some (task i)))[j]? = none :=
      List.getElem?_eq_none (by simpa using Nat.le_of_not_lt hj)
    by_cases hmem : j ∈ order <;>
      simp [hmem, hj, List.length_replicate, hrange, List.getElem?_replicate]

/-- Claim C3: the rows built by the batch coordinator are in input submission
order regardless of the order in which the concurrent uploads complete: each
upload writes its result into the slot of its original index, so whenever the
completion order is a permutation of the order indices, row i is built from
record i paired with attachment result i. -/
theorem submit_row_order_alignment (orders : List (List String))
    (url : Nat → String) (ts : String) (order : List Nat)
    (hperm : order.Perm (List.range orders.length)) :
    allRowsOf orders url ts order
      = (List.range orders.length).map
          (fun i => buildRowIndexed (orders.getD i []) (url i) ts) := by
  have hmem : ∀ j, j < orders.length → j ∈ order := fun j hj =>
    hperm.mem_iff.mpr (List.mem_range.mpr hj)
  rw [allRowsOf, promiseAll_eq_of_mem _ _ _ hmem, List.map_map]
  exact List.map_congr_left fun a _ => rfl

/-- Witness for claim C3: records R0, R1, R2 whose uploads complete in the
order R2, R0, R1 still produce rows in the order R0, R1, R2. -/
theorem submit_row_order_alignment_inst :
    allRowsOf [["R0"], ["R1"], ["R2"]] demoUrl "TS" [2, 0, 1]
      = (List.range ([["R0"], ["R1"], ["R2"]] : List (List String)).length).map
          (fun i => buildRowIndexed ([["R0"], ["R1"], ["R2"]].getD i [])
            (demoUrl i) "TS") :=
  submit_row_order_alignment [["R0"], ["R1"], ["R2"]] demoUrl "TS" [2, 0, 1]
    (by decide)

theorem setRow1_drop_one (g : Grid) (vals : Row) :
    (setRow1 g vals).drop 1 = g.drop 1 := by
  cases g <;> rfl

theorem ensureHeadersRun_drop_one (readOk : Bool) (g : Grid) :
    (ensureHeadersRun readOk g).drop 1 = g.drop 1 := by
  cases readOk with
  | false =>
    simpa [ensureHeadersRun, ensureHeadersFallback] using setRow1_drop_one g FIXED_HEADERS
  | true =>
    show (ensureHeaders g).drop 1 = g.drop 1
    by_cases hc : (readHeaderRow g).length = 0 ∨
        (readHeaderRow g).headD "" ≠ FIXED_HEADERS.headD ""
    · rw [ensureHeaders_write g hc]; exact setRow1_drop_one g FIXED_HEADERS
    · rw [ensureHeaders_skip g hc]

/-- Claim C10: whichever branch runs (header untouched, header overwritten,
or the error-fallback write), ensureHeaders touches at most row 1: every row
from row 2 onward is unchanged. -/
theorem ensureHeaders_frame (readOk : Bool) (g : Grid) :
    (ensureHeadersRun readOk g).drop 1 = g.drop 1 :=
  ensureHeadersRun_drop_one readOk g

/-- Counterexample to claim C6: in the adaptive-extend strategy, processing a
record with the previously unseen key 닉네임 moves the established image
column of the standard headers from position 11 to position 12: the reserved
trailing columns do shift. -/
theorem extendHeaders_shifts_image_column :
    standardHeaders.findIdx? (fun x => x = "이미지") = some 11 ∧
    (extendHeaders standardHeaders ["닉네임"]).findIdx? (fun x => x = "이미지")
      = some 12 := by
  constructor <;> decide

/-- Claim C6 amended: under the adaptive-extend strategy, inserting a
previously unseen key preserves the position of every established column
before the image column, while the image column and every column after it
(the two reserved trailing columns) shift right by exactly one, remaining
the trailing columns. -/
theorem extendHeaders_position_shift (existing : List String) (k : String)
    (hk : ¬ k ∈ existing) (h1 : k ≠ "이미지") (h2 : k ≠ "주문일시")
    (i : Nat) (hi : existing.findIdx? (fun x => x = "이미지") = some i) :
    (∀ j : Nat, j < i → (extendHeaders existing [k])[j]? = existing[j]?) ∧
    (∀ j : Nat, i ≤ j → (extendHeaders existing [k])[j + 1]? = existing[j]?) := by
  have hstep : extendHeaders existing [k]
      = existing.take i ++ [k] ++ existing.drop i := by
    show extendStep existing k = _
    rw [extendStep, if_neg (by push_neg; exact ⟨hk, h1, h2⟩), hi]
  have hilen : i < existing.length :=
    (List.findIdx?_eq_some_iff_findIdx_eq.mp hi).1
  have htake : (existing.take i).length = i := by
    rw [List.length_take]; omega
  constructor
  · intro j hj
    rw [hstep, List.append_assoc, List.getElem?_append,
      if_pos (show j < (existing.take i).length by rw [htake]; exact hj),
      List.getElem?_take, if_pos hj]
  · intro j hj
    rw [hstep, List.append_assoc,
      List.getElem?_append_right (by rw [htake]; omega),
      List.getElem?_append_right (by simp; omega), htake,
      List.getElem?_drop]
    congr 1
    simp
    omega

/-- Witness for the amended claim C6: inserting 닉네임 into the standard
headers keeps column 0 in place and moves the old column 11 to column 12. -/
theorem extendHeaders_position_shift_inst :
    (extendHeaders standardHeaders ["닉네임"])[0]? = standardHeaders[0]? ∧
    (extendHeaders standardHeaders ["닉네임"])[12]? = standardHeaders[11]? :=
  ⟨(extendHeaders_position_shift standardHeaders "닉네임" (by decide) (by decide)
      (by decide) 11 (by decide)).1 0 (by decide),
   (extendHeaders_position_shift standardHeaders "닉네임" (by decide) (by decide)
      (by decide) 11 (by decide)).2 11 (by decide)⟩

/-- Counterexample to claim C7: in the adaptive-extend strategy the catch
branch of getOrCreateHeaders returns the canonical schema without writing
anything; on an empty tab the grid stays without any header row, so header
presence is not restored by a forced write. -/
theorem getOrCreateHeaders_error_writes_nothing :
    (getOrCreateHeadersOnError ([] : Grid)).1 = ([] : Grid) ∧
    ((getOrCreateHeadersOnError ([] : Grid)).1).headD [] ≠ standardHeaders :=
  ⟨rfl, by decide⟩

/-- Claim C7 amended: on a failed header read or write, the static-fixed
strategy falls back to forcibly writing the canonical schema as the header
row, while the adaptive-extend strategy only resolves to its canonical
schema in memory and leaves the sheet untouched. -/
theorem headerFailure_fallback (g : Grid)
    (hw : (g.headD []).length ≤ FIXED_HEADERS.length) :
    (ensureHeadersRun false g).headD [] = FIXED_HEADERS ∧
    (∀ g2 : Grid, (getOrCreateHeadersOnError g2).1 = g2 ∧
      (getOrCreateHeadersOnError g2).2 = standardHeaders) := by
  refine ⟨?_, fun g2 => ⟨rfl, rfl⟩⟩
  show (ensureHeadersFallback g).headD [] = FIXED_HEADERS
  exact headD_setRow1 g hw

/-- Witness for the amended claim C7: the static-fixed fallback on a one-row
tab rewrites the header row to the canonical schema. -/
theorem headerFailure_fallback_inst :
    (ensureHeadersRun false [["X"]]).headD [] = FIXED_HEADERS :=
  (headerFailure_fallback [["X"]] (by decide)).1

/-- Counterexample to claim C5: in the sequential revision, a two-order batch
whose second upload fails aborts, yet the row of the first order has already
been appended: the sheet is left changed, with a partial commit of the
batch. -/
theorem seq_batch_partial_commit :
    (submitOrdersSeq [standardHeaders] [demoOrder, demoOrder2] demoUp "T").2
      = false ∧
    (submitOrdersSeq [standardHeaders] [demoOrder, demoOrder2] demoUp "T").1
      = [standardHeaders, rowData standardHeaders demoOrder "" "T"] ∧
    (submitOrdersSeq [standardHeaders] [demoOrder, demoOrder2] demoUp "T").1
      ≠ [standardHeaders] := by
  refine ⟨rfl, rfl, ?_⟩
  decide

/-- Claim C5 amended: in the concurrent revision, any upload failure makes
Promise.all reject before the sheet write runs, so the batch commits no rows
and the grid keeps every row from row 2 onward (only the earlier header
enforcement may have touched row 1); in the earlier sequential revision a
failing upload aborts the remaining orders, but rows appended for the orders
before the failure remain committed. -/
theorem submit_failure_no_partial_write (g : Grid) (orders : List (List String))
    (up : Nat → UploadResult) (ts : String)
    (hfail : ∃ i, i < orders.length ∧ uploadOk (up i) = false) :
    submitOrdersIndexed g orders up ts = (ensureHeaders g, false) ∧
    (submitOrdersIndexed g orders up ts).1.drop 1 = g.drop 1 ∧
    (submitOrdersSeq [standardHeaders] [demoOrder, demoOrder2] demoUp "T").1
      = [standardHeaders, rowData standardHeaders demoOrder "" "T"] := by
  have hall : (List.range orders.length).all (fun i => uploadOk (up i)) = false := by
    obtain ⟨i, hi, hfl⟩ := hfail
    rw [List.all_eq_false]
    exact ⟨i, List.mem_range.mpr hi, by simp [hfl]⟩
  have h1 : submitOrdersIndexed g orders up ts = (ensureHeaders g, false) := by
    rw [submitOrdersIndexed, hall]
    rfl
  refine ⟨h1, ?_, rfl⟩
  rw [h1]
  simpa using ensureHeadersRun_drop_one true g

/-- Witness for the amended claim C5: a one-order batch whose upload fails
leaves the empty tab with only the enforced header and no data rows. -/
theorem submit_failure_no_partial_write_inst :
    submitOrdersIndexed [] [["R0"]] (fun _ => .error "boom") "T"
      = (ensureHeaders [], false) :=
  (submit_failure_no_partial_write [] [["R0"]] (fun _ => .error "boom") "T"
    ⟨0, by decide, rfl⟩).1

end OrderBackend
